import Mathlib

/-!
Verification of the cache client in `src/internal/objectstorageClient.ts`
(a Volcengine TOS object-storage backend for a CI build cache).

The embedding is shallow: each exported TypeScript function becomes a Lean
function over explicit parameters standing for the process environment
(`Env`), the external storage backend (a function from object key to a
head-request outcome, resp. a put outcome), and the external `crypto`
sha256-hex digest (a parameter `sha256hex : String → String`, since the
hash implementation lives in the Node `crypto` library, an external
collaborator). Effects (console output, SDK calls) are recorded as
explicit event traces where a claim depends on them.
-/

set_option autoImplicit false

namespace ObjectStorageClient

/-- Process environment values read at module load: `GITHUB_REPOSITORY`,
`GITHUB_REF`, `GITHUB_WORKFLOW_SHA`, and whether `process.platform` equals
`win32`. The bucket name is a further constant sent with every SDK call;
it is folded into the backend parameters since no claim depends on it. -/
structure Env where
  repo : String
  ref : String
  workflowHash : String
  platformIsWin32 : Bool
deriving DecidableEq, Repr

/-- The `CompressionMethod` string enum from `constants.ts` (file absent
from `src/`, values as consumed by `getCacheVersion`). -/
inductive CompressionMethod where
  | gzip
  | zstdWithoutLong
  | zstd
deriving DecidableEq, Repr

/-- The string value of a `CompressionMethod` enum member. -/
def CompressionMethod.str : CompressionMethod → String
  | .gzip => "gzip"
  | .zstdWithoutLong => "zstd-without-long"
  | .zstd => "zstd"

/-- `ArtifactCacheEntry` from `contracts.d.ts`: every field optional;
`none` models an absent (undefined) field. -/
structure ArtifactCacheEntry where
  cacheKey : Option String := none
  scope : Option String := none
  cacheVersion : Option String := none
  creationTime : Option String := none
  objectKey : Option String := none
deriving DecidableEq, Repr

/-- `InternalCacheOptions` from `contracts.d.ts`. -/
structure InternalCacheOptions where
  compressionMethod : Option CompressionMethod := none
  enableCrossOsArchive : Option Bool := none
  cacheSize : Option Nat := none
deriving DecidableEq, Repr

/-- `ReserveCacheResponse` from `contracts.d.ts`. -/
structure ReserveCacheResponse where
  cacheId : Nat
deriving DecidableEq, Repr

/-- The constant `versionSalt = "1.0"`. -/
def versionSalt : String := "1.0"

/-- `getCacheVersion` from the source: copy the path list, conditionally
append the compression-method string, conditionally append the
`windows-only` marker, append the salt, join with `|` and digest.
`sha256hex` abstracts `crypto.createHash("sha256").update(_).digest("hex")`. -/
def getCacheVersion (sha256hex : String → String) (env : Env) (paths : List String)
    (compressionMethod : Option CompressionMethod) (enableCrossOsArchive : Bool) : String :=
  let components := paths
  let components :=
    match compressionMethod with
    | some m => components ++ [m.str]
    | none => components
  let components :=
    if env.platformIsWin32 && !enableCrossOsArchive then components ++ ["windows-only"]
    else components
  let components := components ++ [versionSalt]
  sha256hex (String.intercalate "|" components)

/-- `options?.compressionMethod` (optional chaining). -/
def optCompression (options : Option InternalCacheOptions) : Option CompressionMethod :=
  options.bind (fun o => o.compressionMethod)

/-- `options?.enableCrossOsArchive`; an undefined value reaches
`getCacheVersion` where the parameter default `false` applies. -/
def optCrossOs (options : Option InternalCacheOptions) : Bool :=
  (options.bind (fun o => o.enableCrossOsArchive)).getD false

/-- Outcome of `client.headObject` at one object key: resolves, or throws
a `TosServerError` with a status code, or throws a `TosClientError`, or
throws some other error. -/
inductive HeadOutcome where
  | ok
  | throwServer (statusCode : Nat)
  | throwClient
  | throwOther
deriving DecidableEq, Repr

/-- The object address built inside the `getCacheEntry` loop (and inside
`uploadFile`): `caches/` followed by repo, ref, workflow hash and the key,
separated by `/`. -/
def objectKeyFor (env : Env) (key : String) : String :=
  "caches/" ++ env.repo ++ "/" ++ env.ref ++ "/" ++ env.workflowHash ++ "/" ++ key

/-- The `for (const key of keys)` loop of `getCacheEntry`, returning the
resulting entry together with the list of object addresses probed via
`headObject`, in probe order. The source `catch` block continues the loop
on every thrown error (the `404` test only selects a warning message), so
every non-`ok` outcome falls through to the next key. -/
def getCacheEntryLoop (env : Env) (backend : String → HeadOutcome) (version : String) :
    List String → ArtifactCacheEntry × List String
  | [] => ({ cacheVersion := some version }, [])
  | key :: rest =>
    match backend (objectKeyFor env key) with
    | .ok =>
      ({ cacheKey := some key, cacheVersion := some version,
         objectKey := some (objectKeyFor env key) }, [objectKeyFor env key])
    | _ =>
      ((getCacheEntryLoop env backend version rest).1,
       objectKeyFor env key :: (getCacheEntryLoop env backend version rest).2)

/-- `getCacheEntry` from the source, with its probe trace: computes the
version from `paths` and the options, then runs the key loop. -/
def getCacheEntryRun (sha256hex : String → String) (env : Env)
    (backend : String → HeadOutcome) (keys paths : List String)
    (options : Option InternalCacheOptions) : ArtifactCacheEntry × List String :=
  let version := getCacheVersion sha256hex env paths (optCompression options) (optCrossOs options)
  getCacheEntryLoop env backend version keys

/-- `getCacheEntry` proper: the entry returned to the caller. -/
def getCacheEntry (sha256hex : String → String) (env : Env)
    (backend : String → HeadOutcome) (keys paths : List String)
    (options : Option InternalCacheOptions) : ArtifactCacheEntry :=
  (getCacheEntryRun sha256hex env backend keys paths options).1

/-- `reserveCacheVolc` from the source (storage-direct reservation):
computes the version, then returns the constant response
`cacheId = 1` (the constant binding `const cacheId = 1`). -/
def reserveCacheVolc (sha256hex : String → String) (env : Env) (key : String)
    (paths : List String) (options : Option InternalCacheOptions) : ReserveCacheResponse :=
  let version := getCacheVersion sha256hex env paths (optCompression options) (optCrossOs options)
  let cacheId := 1
  { cacheId := cacheId }

/-- `getContentRange` from the source: the template string
`bytes start-end/*` with the two offsets interpolated in decimal. -/
def getContentRange (start finish : Int) : String :=
  "bytes " ++ toString start ++ "-" ++ toString finish ++ "/*"

/-- Outcome of `client.putObjectFromFile`: resolves, or throws one of the
TOS error classes, or throws something else. -/
inductive PutOutcome where
  | success
  | throwClient (msg : String)
  | throwServer (statusCode : Nat) (msg : String)
  | throwOther (msg : String)
deriving DecidableEq, Repr

/-- Observable events of the save path: `core.debug`, `core.info`,
`console.log` lines, the put call, and a commit call (which the active
source never makes: the commit request is absent from `saveCache`). -/
inductive Event where
  | debug (s : String)
  | info (s : String)
  | log (s : String)
  | put (objectName filePath : String)
  | commit (cacheId : String) (size : Nat)
deriving DecidableEq, Repr

/-- `handleError` from the source: logs fields of the caught error,
branching on its class; it rethrows nothing. Stack traces, request ids
and response headers are summarised by the leading log line of each
branch. -/
def handleError : PutOutcome → List Event
  | .success => []
  | .throwClient msg => [.log ("Client Err Msg: " ++ msg)]
  | .throwServer statusCode msg =>
    [.log ("Response Status Code: " ++ Nat.repr statusCode),
     .log ("Response Err Msg: " ++ msg)]
  | .throwOther msg => [.log ("unexpected exception, message: " ++ msg)]

/-- `uploadFile` from the source: builds the object name, calls
`putObjectFromFile` inside `try`, and on any thrown error calls
`handleError` and returns normally — the error is never rethrown. The
returned trace lists the emitted events. -/
def uploadFile (put : String → String → PutOutcome) (env : Env)
    (cacheId archivePath : String) : List Event :=
  let objectName := objectKeyFor env cacheId
  Event.put objectName archivePath :: handleError (put objectName archivePath)

/-- `Math.round(cacheSize / (1024 * 1024))` for a natural byte count. -/
def roundMB (size : Nat) : Nat :=
  (2 * size + 1048576) / 2097152

/-- `saveCache` from the source: upload, then log the archive size (read
via `utils.getArchiveFileSizeInBytes`, passed here as `archiveSize`), then
log `Cache saved successfully`. The commented-out commit request is not
modelled as an event because the active code never issues it. The function
always runs to the end: `uploadFile` cannot throw. -/
def saveCache (put : String → String → PutOutcome) (env : Env)
    (cacheId archivePath : String) (archiveSize : Nat) : List Event :=
  Event.debug "Upload cache" :: uploadFile put env cacheId archivePath
    ++ [Event.debug "Commiting cache",
        Event.info ("Cache Size: ~" ++ Nat.repr (roundMB archiveSize) ++ " MB ("
          ++ Nat.repr archiveSize ++ " B)"),
        Event.info "Cache saved successfully"]

/-- Whether a trace contains a commit call. -/
def hasCommit : List Event → Bool
  | [] => false
  | Event.commit _ _ :: _ => true
  | _ :: rest => hasCommit rest

/-! ### A store model of JavaScript array mutation for `getCacheVersion`

To express that `getCacheVersion` never mutates the array the caller
passed (`paths.slice()` copies before the `push` calls), the JS heap of
string arrays is modelled as a list of arrays addressed by index; `slice`
allocates a fresh cell, `push` mutates one cell in place. -/

/-- The heap of JS string arrays: cell `r` holds the array an array
reference `r` points to. -/
def Store : Type := List (List String)

/-- Dereference an array reference. -/
def Store.get (st : Store) (r : Nat) : List String :=
  List.getD st r []

/-- Allocate a fresh array holding `a`; returns the new store and the
fresh reference. -/
def Store.alloc (st : Store) (a : List String) : Store × Nat :=
  (List.append st [a], List.length st)

/-- `arr.push(x)` on the array behind reference `r`: in-place mutation of
one cell. -/
def Store.push (st : Store) (r : Nat) (x : String) : Store :=
  List.set st r (Store.get st r ++ [x])

/-- Number of allocated cells. -/
def Store.size (st : Store) : Nat :=
  List.length st

/-- `getCacheVersion` run against the store model: `pathsRef` is the
caller's array reference; the body copies it with `slice`, pushes onto the
copy only, and returns the digest together with the final heap. -/
def getCacheVersionJS (sha256hex : String → String) (env : Env) (st : Store)
    (pathsRef : Nat) (compressionMethod : Option CompressionMethod)
    (enableCrossOsArchive : Bool) : String × Store :=
  let alloced := Store.alloc st (Store.get st pathsRef)
  let st1 := alloced.1
  let components := alloced.2
  let st2 :=
    match compressionMethod with
    | some m => Store.push st1 components m.str
    | none => st1
  let st3 :=
    if env.platformIsWin32 && !enableCrossOsArchive then Store.push st2 components "windows-only"
    else st2
  let st4 := Store.push st3 components versionSalt
  (sha256hex (String.intercalate "|" (Store.get st4 components)), st4)

/-! ### Store lemmas -/

theorem store_alloc_snd (st : Store) (a : List String) :
    (Store.alloc st a).2 = Store.size st := rfl

theorem store_size_alloc (st : Store) (a : List String) :
    Store.size (Store.alloc st a).1 = Store.size st + 1 := by
  simp [Store.alloc, Store.size]

theorem store_size_push (st : Store) (c : Nat) (x : String) :
    Store.size (Store.push st c x) = Store.size st := by
  simp [Store.push, Store.size]

theorem store_get_alloc_fresh (st : Store) (a : List String) :
    Store.get (Store.alloc st a).1 (Store.size st) = a := by
  induction st with
  | nil => rfl
  | cons hd tl ih =>
    simp only [Store.alloc, Store.get, Store.size] at ih ⊢
    simp only [List.cons_append, List.length_cons, List.getD_cons_succ]
    exact ih

theorem store_get_alloc_lt (st : Store) (a : List String) (r : Nat) (h : r < Store.size st) :
    Store.get (Store.alloc st a).1 r = Store.get st r := by
  induction st generalizing r with
  | nil => exact absurd h (by simp [Store.size])
  | cons hd tl ih =>
    cases r with
    | zero => rfl
    | succ n =>
      simpa [Store.alloc, Store.get, Store.size] using
        ih n (by simpa [Store.size] using Nat.lt_of_succ_lt_succ h)

theorem store_get_push_self (st : Store) (c : Nat) (x : String) (h : c < Store.size st) :
    Store.get (Store.push st c x) c = Store.get st c ++ [x] := by
  induction st generalizing c with
  | nil => exact absurd h (by simp [Store.size])
  | cons hd tl ih =>
    cases c with
    | zero => rfl
    | succ n =>
      simpa [Store.push, Store.get, Store.size] using
        ih n (by simpa [Store.size] using Nat.lt_of_succ_lt_succ h)

theorem store_get_push_ne (st : Store) (c : Nat) (x : String) (r : Nat) (h : r ≠ c) :
    Store.get (Store.push st c x) r = Store.get st r := by
  induction st generalizing c r with
  | nil => simp [Store.push, Store.get]
  | cons hd tl ih =>
    cases r with
    | zero =>
      cases c with
      | zero => exact absurd rfl h
      | succ m => rfl
    | succ n =>
      cases c with
      | zero => rfl
      | succ m =>
        simp only [Store.push, Store.get] at ih ⊢
        exact ih m n (fun hc => h (by rw [hc]))

/-- The digest computed by the store model equals the pure
`getCacheVersion` applied to the content of the caller's array: the body
only reads the caller's cell once (the `slice`) and pushes onto the fresh
copy. -/
theorem getCacheVersionJS_fst (sha256hex : String → String) (env : Env) (st : Store)
    (r : Nat) (cm : Option CompressionMethod) (eco : Bool) :
    (getCacheVersionJS sha256hex env st r cm eco).1 =
      getCacheVersion sha256hex env (Store.get st r) cm eco := by
  unfold getCacheVersionJS getCacheVersion
  cases cm with
  | none =>
    cases hw : env.platformIsWin32 && !eco <;>
      simp [hw, store_alloc_snd, store_size_alloc, store_size_push,
        store_get_push_self, store_get_alloc_fresh, Nat.lt_succ_self]
  | some m =>
    cases hw : env.platformIsWin32 && !eco <;>
      simp [hw, store_alloc_snd, store_size_alloc, store_size_push,
        store_get_push_self, store_get_alloc_fresh, Nat.lt_succ_self]

/-- The store model leaves the caller's array untouched: the only
mutations hit the fresh cell allocated by `slice`. -/
theorem getCacheVersionJS_snd_get (sha256hex : String → String) (env : Env) (st : Store)
    (r : Nat) (cm : Option CompressionMethod) (eco : Bool) (hr : r < Store.size st) :
    Store.get (getCacheVersionJS sha256hex env st r cm eco).2 r = Store.get st r := by
  have hne : r ≠ Store.size st := Nat.ne_of_lt hr
  unfold getCacheVersionJS
  cases cm with
  | none =>
    cases hw : env.platformIsWin32 && !eco <;>
      simp [hw, store_alloc_snd, store_get_push_ne _ _ _ _ hne,
        store_get_alloc_lt _ _ _ hr]
  | some m =>
    cases hw : env.platformIsWin32 && !eco <;>
      simp [hw, store_alloc_snd, store_get_push_ne _ _ _ _ hne,
        store_get_alloc_lt _ _ _ hr]

/-! ### Key-loop lemmas -/

theorem getCacheEntryLoop_cons_hit (env : Env) (backend : String → HeadOutcome)
    (version key : String) (rest : List String)
    (h : backend (objectKeyFor env key) = HeadOutcome.ok) :
    getCacheEntryLoop env backend version (key :: rest) =
      ({ cacheKey := some key, cacheVersion := some version,
         objectKey := some (objectKeyFor env key) }, [objectKeyFor env key]) := by
  simp [getCacheEntryLoop, h]

theorem getCacheEntryLoop_cons_skip (env : Env) (backend : String → HeadOutcome)
    (version key : String) (rest : List String)
    (h : backend (objectKeyFor env key) ≠ HeadOutcome.ok) :
    getCacheEntryLoop env backend version (key :: rest) =
      ((getCacheEntryLoop env backend version rest).1,
       objectKeyFor env key :: (getCacheEntryLoop env backend version rest).2) := by
  cases hb : backend (objectKeyFor env key) with
  | ok => exact absurd hb h
  | throwServer statusCode => simp [getCacheEntryLoop, hb]
  | throwClient => simp [getCacheEntryLoop, hb]
  | throwOther => simp [getCacheEntryLoop, hb]

/-- First-match behaviour of the key loop: with every key before `key`
failing its head probe and `key` succeeding, the loop returns the entry
for `key` and has probed exactly the addresses of the earlier keys plus
`key` itself. -/
theorem getCacheEntryLoop_first_match (env : Env) (backend : String → HeadOutcome)
    (version : String) (pre : List String) (key : String) (rest : List String)
    (hpre : ∀ k ∈ pre, backend (objectKeyFor env k) ≠ HeadOutcome.ok)
    (hhit : backend (objectKeyFor env key) = HeadOutcome.ok) :
    getCacheEntryLoop env backend version (pre ++ key :: rest) =
      ({ cacheKey := some key, cacheVersion := some version,
         objectKey := some (objectKeyFor env key) },
       List.map (objectKeyFor env) (pre ++ [key])) := by
  induction pre with
  | nil => simpa using getCacheEntryLoop_cons_hit env backend version key rest hhit
  | cons k0 pre ih =>
    have hk0 : backend (objectKeyFor env k0) ≠ HeadOutcome.ok := hpre k0 (by simp)
    have ih2 := ih (fun k hk => hpre k (by simp [hk]))
    rw [List.cons_append, getCacheEntryLoop_cons_skip env backend version k0 _ hk0, ih2]
    simp

/-- All-miss behaviour of the key loop: every probe fails, all addresses
are probed in order, and the miss entry carries only the version. -/
theorem getCacheEntryLoop_all_miss (env : Env) (backend : String → HeadOutcome)
    (version : String) (keys : List String)
    (hmiss : ∀ k ∈ keys, backend (objectKeyFor env k) ≠ HeadOutcome.ok) :
    getCacheEntryLoop env backend version keys =
      ({ cacheVersion := some version }, List.map (objectKeyFor env) keys) := by
  induction keys with
  | nil => rfl
  | cons k0 keys ih =>
    have hk0 : backend (objectKeyFor env k0) ≠ HeadOutcome.ok := hmiss k0 (by simp)
    rw [getCacheEntryLoop_cons_skip env backend version k0 _ hk0,
      ih (fun k hk => hmiss k (by simp [hk]))]
    simp

/-- The version threaded through the key loop influences only the
`cacheVersion` field of the result; the probe trace and the key/address
fields are version-independent. -/
theorem getCacheEntryLoop_version_independent (env : Env) (backend : String → HeadOutcome)
    (v₁ v₂ : String) (keys : List String) :
    (getCacheEntryLoop env backend v₁ keys).1.cacheKey =
        (getCacheEntryLoop env backend v₂ keys).1.cacheKey
    ∧ (getCacheEntryLoop env backend v₁ keys).1.objectKey =
        (getCacheEntryLoop env backend v₂ keys).1.objectKey
    ∧ (getCacheEntryLoop env backend v₁ keys).2 = (getCacheEntryLoop env backend v₂ keys).2 := by
  induction keys with
  | nil => exact ⟨rfl, rfl, rfl⟩
  | cons k0 keys ih =>
    by_cases hb : backend (objectKeyFor env k0) = HeadOutcome.ok
    · rw [getCacheEntryLoop_cons_hit env backend v₁ k0 keys hb,
        getCacheEntryLoop_cons_hit env backend v₂ k0 keys hb]
      exact ⟨rfl, rfl, rfl⟩
    · rw [getCacheEntryLoop_cons_skip env backend v₁ k0 keys hb,
        getCacheEntryLoop_cons_skip env backend v₂ k0 keys hb]
      exact ⟨ih.1, ih.2.1, by rw [ih.2.2]⟩

/-- Every address the key loop probes is the scoped address of one of the
supplied keys. -/
theorem getCacheEntryLoop_probes_from_keys (env : Env) (backend : String → HeadOutcome)
    (version : String) (keys : List String) :
    ∀ a ∈ (getCacheEntryLoop env backend version keys).2,
      ∃ k ∈ keys, a = objectKeyFor env k := by
  induction keys with
  | nil => intro a ha; exact absurd ha (by simp [getCacheEntryLoop])
  | cons k0 keys ih =>
    intro a ha
    by_cases hb : backend (objectKeyFor env k0) = HeadOutcome.ok
    · rw [getCacheEntryLoop_cons_hit env backend version k0 keys hb] at ha
      simp at ha
      exact ⟨k0, by simp, ha⟩
    · rw [getCacheEntryLoop_cons_skip env backend version k0 keys hb] at ha
      simp at ha
      rcases ha with ha | ha
      · exact ⟨k0, by simp, ha⟩
      · rcases ih a ha with ⟨k, hk, hak⟩
        exact ⟨k, by simp [hk], hak⟩

/-! ### Concrete fixtures used by evaluation theorems and witnesses -/

/-- A concrete environment: repo `r`, ref `main`, workflow hash `h`,
non-Windows platform. -/
def envR : Env := { repo := "r", ref := "main", workflowHash := "h", platformIsWin32 := false }

/-- A concrete stand-in for the sha256 hex digest: constant, non-empty. -/
def shaStub : String → String := fun _ => "d"

/-- A backend in which only `caches/r/main/h/lock-` exists; every other
head probe throws a 404 server error. -/
def backendLock : String → HeadOutcome := fun a =>
  if a = "caches/r/main/h/lock-" then HeadOutcome.ok else HeadOutcome.throwServer 404

/-- A backend in which nothing exists: every head probe throws 404. -/
def backendMiss : String → HeadOutcome := fun _ => HeadOutcome.throwServer 404

/-- A backend that throws an authorization error (403) for every address
except the one of key `b`, which exists. -/
def backend403 : String → HeadOutcome := fun a =>
  if a = objectKeyFor envR "b" then HeadOutcome.ok else HeadOutcome.throwServer 403

/-- A put operation that always throws a 500 server error. -/
def put500 : String → String → PutOutcome := fun _ _ =>
  PutOutcome.throwServer 500 "InternalError"

/-- A concrete one-cell store whose cell 0 is the caller's path array. -/
def stR : Store := [["/a", "/b"]]

/-! ### Claim theorems -/

/-- Claim C1, code-bug evaluation: with a backend put that throws a
server error, `saveCache` swallows the failure (it is only logged inside
`uploadFile` via `handleError`), issues no commit call, and still logs
`Cache saved successfully` — contradicting the claim that a failed upload
is surfaced and success is not reported. -/
theorem C1_saveCache_success_after_failed_put :
    hasCommit (saveCache put500 envR "cid" "/tmp/cache.tgz" 42) = false
    ∧ Event.info "Cache saved successfully" ∈ saveCache put500 envR "cid" "/tmp/cache.tgz" 42
    ∧ Event.log ("Response Status Code: " ++ Nat.repr 500)
        ∈ saveCache put500 envR "cid" "/tmp/cache.tgz" 42 := by
  decide

/-- Claim C2, code-bug evaluation: a non-404 backend error (status 403)
raised by the head probe of the first key is swallowed — `getCacheEntry`
continues to the second key and returns its entry, and the probe trace
shows both addresses were queried — contradicting the claim that non-404
errors propagate as fatal resolution errors. -/
theorem C2_getCacheEntry_swallows_auth_error :
    (getCacheEntry shaStub envR backend403 ["a", "b"] ["/p"] none).cacheKey = some "b"
    ∧ (getCacheEntryRun shaStub envR backend403 ["a", "b"] ["/p"] none).2
        = [objectKeyFor envR "a", objectKeyFor envR "b"] := by
  decide

/-- Claim C3: `getCacheEntry` probes keys in the given order at the
scoped address and, on the first key whose address exists, returns an
entry whose `cacheKey` is that exact key and whose `objectKey` is that
address; the probe trace is exactly the addresses of the earlier keys
plus the hit, so no later key is probed. -/
theorem C3_getCacheEntry_first_match (sha256hex : String → String) (env : Env)
    (backend : String → HeadOutcome) (paths : List String)
    (options : Option InternalCacheOptions) (pre : List String) (key : String)
    (rest : List String)
    (hpre : ∀ k ∈ pre, backend (objectKeyFor env k) ≠ HeadOutcome.ok)
    (hhit : backend (objectKeyFor env key) = HeadOutcome.ok) :
    getCacheEntry sha256hex env backend (pre ++ key :: rest) paths options =
      { cacheKey := some key,
        cacheVersion := some (getCacheVersion sha256hex env paths (optCompression options)
          (optCrossOs options)),
        objectKey := some (objectKeyFor env key) }
    ∧ (getCacheEntryRun sha256hex env backend (pre ++ key :: rest) paths options).2 =
        List.map (objectKeyFor env) (pre ++ [key]) := by
  unfold getCacheEntry getCacheEntryRun
  rw [getCacheEntryLoop_first_match env backend _ pre key rest hpre hhit]
  exact ⟨rfl, rfl⟩

/-- Witness for C3 at the spec scenario: keys `lock-abc` then `lock-`,
only `caches/r/main/h/lock-` exists, and the returned entry is bound to
key `lock-` with no further probing. -/
theorem C3_witness :
    (∀ k ∈ (["lock-abc"] : List String), backendLock (objectKeyFor envR k) ≠ HeadOutcome.ok)
    ∧ backendLock (objectKeyFor envR "lock-") = HeadOutcome.ok
    ∧ (getCacheEntry shaStub envR backendLock (["lock-abc"] ++ "lock-" :: []) ["/p"] none =
        { cacheKey := some "lock-",
          cacheVersion := some (getCacheVersion shaStub envR ["/p"] (optCompression none)
            (optCrossOs none)),
          objectKey := some (objectKeyFor envR "lock-") }
      ∧ (getCacheEntryRun shaStub envR backendLock (["lock-abc"] ++ "lock-" :: []) ["/p"]
            none).2 =
          List.map (objectKeyFor envR) (["lock-abc"] ++ ["lock-"])) :=
  ⟨by decide, by decide,
    C3_getCacheEntry_first_match shaStub envR backendLock ["/p"] none ["lock-abc"] "lock-" []
      (by decide) (by decide)⟩

/-- Claim C4: with the platform not Windows, the version of paths `/a`,
`/b` with compression `zstd` is the digest of `/a|/b|zstd|1.0`; in
general the digest input is the paths, then the compression-method string
if present, then the `windows-only` marker if applicable, then the salt
`1.0`, joined by `|` in that order. -/
theorem C4_getCacheVersion_formula (sha256hex : String → String) (env : Env)
    (hwin : env.platformIsWin32 = false) :
    getCacheVersion sha256hex env ["/a", "/b"] (some CompressionMethod.zstd) false =
      sha256hex "/a|/b|zstd|1.0"
    ∧ ∀ (env2 : Env) (paths : List String) (cm : Option CompressionMethod) (eco : Bool),
        getCacheVersion sha256hex env2 paths cm eco =
          sha256hex (String.intercalate "|" (paths
            ++ (Option.map CompressionMethod.str cm).toList
            ++ (if env2.platformIsWin32 && !eco then ["windows-only"] else [])
            ++ [versionSalt])) := by
  constructor
  · unfold getCacheVersion
    rw [hwin]
    rfl
  · intro env2 paths cm eco
    unfold getCacheVersion
    cases cm with
    | none =>
      cases hw : env2.platformIsWin32 && !eco <;> simp [hw]
    | some m =>
      cases hw : env2.platformIsWin32 && !eco <;> simp [hw]

/-- Witness for C4: the non-Windows hypothesis holds of `envR` and the
formula applies there. -/
theorem C4_witness :
    envR.platformIsWin32 = false
    ∧ (getCacheVersion shaStub envR ["/a", "/b"] (some CompressionMethod.zstd) false =
        shaStub "/a|/b|zstd|1.0"
      ∧ ∀ (env2 : Env) (paths : List String) (cm : Option CompressionMethod) (eco : Bool),
          getCacheVersion shaStub env2 paths cm eco =
            shaStub (String.intercalate "|" (paths
              ++ (Option.map CompressionMethod.str cm).toList
              ++ (if env2.platformIsWin32 && !eco then ["windows-only"] else [])
              ++ [versionSalt]))) :=
  ⟨rfl, C4_getCacheVersion_formula shaStub envR rfl⟩

/-- Claim C5, counterexample: two distinct invocations of
`reserveCacheVolc` (different key and paths) return equal `cacheId`
values, refuting uniqueness per invocation. -/
theorem C5_counterexample :
    (reserveCacheVolc shaStub envR "k1" ["/a"] none).cacheId
      = (reserveCacheVolc shaStub envR "k2" ["/b"] none).cacheId := rfl

/-- Claim C5, amended: every invocation of `reserveCacheVolc` returns the
constant reservation id `1`; the reservation is always granted, but the
identifier is not unique per invocation. -/
theorem C5_reserveCacheVolc_constant (sha256hex : String → String) (env : Env)
    (key : String) (paths : List String) (options : Option InternalCacheOptions) :
    (reserveCacheVolc sha256hex env key paths options).cacheId = 1 := rfl

/-- Claim C7: when no key's scoped address exists in the backend,
`getCacheEntry` returns a miss whose `cacheKey` and `objectKey` are unset
and whose `cacheVersion` is present and non-empty (given the digest
function never returns the empty string, as a hex sha256 digest never
does). -/
theorem C7_getCacheEntry_miss_carries_version (sha256hex : String → String) (env : Env)
    (backend : String → HeadOutcome) (keys paths : List String)
    (options : Option InternalCacheOptions)
    (hsha : ∀ s, sha256hex s ≠ "")
    (hmiss : ∀ k ∈ keys, backend (objectKeyFor env k) ≠ HeadOutcome.ok) :
    (getCacheEntry sha256hex env backend keys paths options).cacheKey = none
    ∧ (getCacheEntry sha256hex env backend keys paths options).objectKey = none
    ∧ ∃ v, (getCacheEntry sha256hex env backend keys paths options).cacheVersion = some v
        ∧ v ≠ "" := by
  unfold getCacheEntry getCacheEntryRun
  rw [getCacheEntryLoop_all_miss env backend _ keys hmiss]
  exact ⟨rfl, rfl, ⟨_, rfl, hsha _⟩⟩

/-- The digest stand-in never returns the empty string. -/
theorem shaStub_ne_empty (s : String) : shaStub s ≠ "" := by
  show ("d" : String) ≠ ""
  decide

/-- Witness for C7: a two-key list against the all-404 backend. -/
theorem C7_witness :
    (∀ s, shaStub s ≠ "")
    ∧ (∀ k ∈ (["a", "b"] : List String), backendMiss (objectKeyFor envR k) ≠ HeadOutcome.ok)
    ∧ ((getCacheEntry shaStub envR backendMiss ["a", "b"] ["/p"] none).cacheKey = none
      ∧ (getCacheEntry shaStub envR backendMiss ["a", "b"] ["/p"] none).objectKey = none
      ∧ ∃ v, (getCacheEntry shaStub envR backendMiss ["a", "b"] ["/p"] none).cacheVersion
            = some v ∧ v ≠ "") :=
  ⟨shaStub_ne_empty, by decide,
    C7_getCacheEntry_miss_carries_version shaStub envR backendMiss ["a", "b"] ["/p"] none
      shaStub_ne_empty (by decide)⟩

/-- Claim C8: in the store model of JS array mutation, the digest
returned by `getCacheVersion` depends only on the content of the array
the caller passed — identical inputs give identical outputs, and
mutating any array (such as a copy) between calls cannot change the
result of a later call on an array with the original content — and the
caller's own array is unchanged after the call (`slice` copies before the
pushes). -/
theorem C8_getCacheVersionJS_pure (sha256hex : String → String) (env : Env) (st : Store)
    (r : Nat) (cm : Option CompressionMethod) (eco : Bool) (hr : r < Store.size st) :
    (∀ (st2 : Store) (r2 : Nat), Store.get st2 r2 = Store.get st r →
      (getCacheVersionJS sha256hex env st2 r2 cm eco).1 =
        (getCacheVersionJS sha256hex env st r cm eco).1)
    ∧ Store.get (getCacheVersionJS sha256hex env st r cm eco).2 r = Store.get st r := by
  refine ⟨fun st2 r2 heq => ?_, getCacheVersionJS_snd_get sha256hex env st r cm eco hr⟩
  rw [getCacheVersionJS_fst, getCacheVersionJS_fst, heq]

/-- Witness for C8: a one-cell store holding the caller's path array. -/
theorem C8_witness :
    0 < Store.size stR
    ∧ ((∀ (st2 : Store) (r2 : Nat), Store.get st2 r2 = Store.get stR 0 →
        (getCacheVersionJS shaStub envR st2 r2 (some CompressionMethod.zstd) false).1 =
          (getCacheVersionJS shaStub envR stR 0 (some CompressionMethod.zstd) false).1)
      ∧ Store.get (getCacheVersionJS shaStub envR stR 0 (some CompressionMethod.zstd)
            false).2 0 = Store.get stR 0) :=
  ⟨by decide,
    C8_getCacheVersionJS_pure shaStub envR stR 0 (some CompressionMethod.zstd) false
      (by decide)⟩

/-- The decimal rendering of a non-negative integer agrees with the
decimal rendering of its natural-number value. -/
theorem int_toString_nonneg (i : Int) (h : 0 ≤ i) : toString i = Nat.repr (Int.toNat i) := by
  cases i with
  | ofNat n => rfl
  | negSucc n =>
    rw [Int.negSucc_eq] at h
    omega

/-- Claim C9: for 0 ≤ start ≤ end, `getContentRange` produces exactly
`bytes ` followed by the decimal start offset, a dash, the decimal end
offset, and `/*` (total size unknown). -/
theorem C9_getContentRange_format (start finish : Int) (h0 : 0 ≤ start)
    (h1 : start ≤ finish) :
    getContentRange start finish =
      "bytes " ++ Nat.repr (Int.toNat start) ++ "-" ++ Nat.repr (Int.toNat finish)
        ++ "/*" := by
  unfold getContentRange
  rw [int_toString_nonneg start h0, int_toString_nonneg finish (le_trans h0 h1)]

/-- Witness for C9 at the 200-byte chunk of the source comment:
`bytes 0-199/*`. -/
theorem C9_witness :
    (0 : Int) ≤ 0 ∧ (0 : Int) ≤ 199
    ∧ getContentRange 0 199 =
        "bytes " ++ Nat.repr (Int.toNat 0) ++ "-" ++ Nat.repr (Int.toNat 199) ++ "/*" :=
  ⟨by decide, by decide, C9_getContentRange_format 0 199 (by decide) (by decide)⟩

/-- Claim C10: every address `getCacheEntry` probes is the scoped address
of one of the supplied keys — built from the environment scope and the
key alone, never from the computed version — so two calls with the same
keys, environment and backend but different paths or options probe the
same addresses and agree on the hit/miss outcome (same `cacheKey` and
`objectKey`). -/
theorem C10_getCacheEntry_version_blind (sha256hex : String → String) (env : Env)
    (backend : String → HeadOutcome) (keys paths₁ paths₂ : List String)
    (options₁ options₂ : Option InternalCacheOptions) :
    (getCacheEntryRun sha256hex env backend keys paths₁ options₁).2 =
        (getCacheEntryRun sha256hex env backend keys paths₂ options₂).2
    ∧ (getCacheEntry sha256hex env backend keys paths₁ options₁).cacheKey =
        (getCacheEntry sha256hex env backend keys paths₂ options₂).cacheKey
    ∧ (getCacheEntry sha256hex env backend keys paths₁ options₁).objectKey =
        (getCacheEntry sha256hex env backend keys paths₂ options₂).objectKey
    ∧ ∀ a ∈ (getCacheEntryRun sha256hex env backend keys paths₁ options₁).2,
        ∃ k ∈ keys, a = objectKeyFor env k := by
  have hv := getCacheEntryLoop_version_independent env backend
    (getCacheVersion sha256hex env paths₁ (optCompression options₁) (optCrossOs options₁))
    (getCacheVersion sha256hex env paths₂ (optCompression options₂) (optCrossOs options₂))
    keys
  exact ⟨hv.2.2, hv.1, hv.2.1, getCacheEntryLoop_probes_from_keys env backend _ keys⟩

end ObjectStorageClient
